import Mathlib

/-!
Verification development for the restricted-execution subsystem of an
agent decision layer: the static gate, the sandboxed execution engine,
the mode classifier and the ACT strategy handler.

The candidate script text is modelled as a list of characters. The
semantics of a script is modelled by a small statement language
(assignments and expression statements over integers, strings and the
absence value) interpreted against an environment that mirrors the
first-insertion key order of a Python dictionary. The gate operates on
the raw text; the engine operates on the parsed statements, so a call of
the engine carries both the text and its parse. Numeric values are
modelled as integers; floating point is out of scope.
-/

namespace AgentDecision

/-- Runtime values a sandboxed script can produce. -/
inductive Value where
  | VInt : Int → Value
  | VStr : List Char → Value
  | VNone : Value
deriving Repr, DecidableEq

open Value

/-- The environment of top-level bindings: an association list whose key
order is the first-insertion order, as in a Python dictionary. -/
abbrev Env := List (List Char × Value)

/-- Dictionary lookup. -/
def envLookup : Env → List Char → Option Value
  | [], _ => Option.none
  | (k, v) :: rest, x => if k = x then some v else envLookup rest x

/-- Dictionary update: an existing key keeps its position and gets the
new value; a new key is appended at the end. -/
def envSet : Env → List Char → Value → Env
  | [], x, v => [(x, v)]
  | (k, w) :: rest, x, v =>
      if k = x then (k, v) :: rest else (k, w) :: envSet rest x v

/-- The Capability Catalog: a mapping from symbol name to a safe
implementation. Built once and never mutated. -/
def Catalog := List Char → Option (Value → Except (List Char) Value)

/-- Expressions of the modelled script fragment. -/
inductive Expr where
  | lit : Value → Expr
  | evar : List Char → Expr
  | add : Expr → Expr → Expr
  | div : Expr → Expr → Expr
  | call : List Char → Expr → Expr
deriving Repr

/-- Statements: assignments and bare expression statements. -/
inductive Stmt where
  | assign : List Char → Expr → Stmt
  | exprStmt : Expr → Stmt
deriving Repr

/-- Expression evaluation. Faults are type errors, division by zero and
unbound-name references, reported with their message. -/
def evalExpr (cat : Catalog) (env : Env) : Expr → Except (List Char) Value
  | .lit v => .ok v
  | .evar x =>
      match envLookup env x with
      | some v => .ok v
      | Option.none => .error ("name ".toList ++ x ++ " is not defined".toList)
  | .add a b => do
      let va ← evalExpr cat env a
      let vb ← evalExpr cat env b
      match va, vb with
      | VInt m, VInt n => .ok (VInt (m + n))
      | VStr s, VStr t => .ok (VStr (s ++ t))
      | _, _ => .error ("unsupported operand type(s) for +".toList)
  | .div a b => do
      let va ← evalExpr cat env a
      let vb ← evalExpr cat env b
      match va, vb with
      | VInt m, VInt n =>
          if n = 0 then .error ("division by zero".toList)
          else .ok (VInt (Int.fdiv m n))
      | _, _ => .error ("unsupported operand type(s) for /".toList)
  | .call f a => do
      let va ← evalExpr cat env a
      match cat f with
      | some g => g va
      | Option.none => .error ("name ".toList ++ f ++ " is not defined".toList)

/-- One statement: an assignment updates the environment, a bare
expression is evaluated for effect only. -/
def execStmt (cat : Catalog) (env : Env) : Stmt → Except (List Char) Env
  | .assign x e => (evalExpr cat env e).map (envSet env x)
  | .exprStmt e => (evalExpr cat env e).map (fun _ => env)

/-- Run a list of statements, threading the environment; the first fault
aborts the run with its message. -/
def execStmts (cat : Catalog) : List Stmt → Env → Except (List Char) Env
  | [], env => .ok env
  | s :: rest, env =>
      match execStmt cat env s with
      | .ok env2 => execStmts cat rest env2
      | .error e => .error e

/-- Run a script from the empty environment, as the engine does with a
fresh locals mapping per invocation. -/
def runScript (cat : Catalog) (prog : List Stmt) : Except (List Char) Env :=
  execStmts cat prog []

/-! ### The static gate -/

/-- The whitespace class of the gate regexes, ASCII part. -/
def isSpaceChar (c : Char) : Bool :=
  c = ' ' || c = '\t' || c = '\n' || c = '\r' || c = '\x0b' || c = '\x0c'

/-- Lower-case a script text; the gate scans case-insensitively. -/
def lowerText (s : List Char) : List Char := s.map Char.toLower

/-- Whether a (lower-cased) text begins with the whitelisted module name. -/
def startsWithMath (s : List Char) : Bool :=
  List.isPrefixOf "math".toList s

/-- The part of the import pattern after the literal: one or more
whitespace characters at a position where the negative lookahead for the
whitelisted module name succeeds. With backtracking, the pattern matches
if some nonempty whitespace run can be consumed so that the remainder
does not begin with the module name. -/
def wsThenNotMath : List Char → Bool
  | [] => false
  | c :: rest =>
      isSpaceChar c && (!startsWithMath rest || wsThenNotMath rest)

/-- Match of the import pattern at the head of a (lower-cased) text. -/
def matchImportAt (s : List Char) : Bool :=
  List.isPrefixOf "import".toList s && wsThenNotMath (s.drop 6)

/-- Search: try the matcher at every suffix, as a regex search does. -/
def searchWith (m : List Char → Bool) : List Char → Bool
  | [] => m []
  | c :: rest => m (c :: rest) || searchWith m rest

/-- Substring search for a literal pattern. -/
def hasSub (pat : List Char) (s : List Char) : Bool :=
  searchWith (fun t => List.isPrefixOf pat t) s

/-- The denylisted textual patterns of the static gate, one constructor
per entry of the source list. -/
inductive GatePat where
  | importP | dunderImport | execCall | evalCall | compileCall
  | openCall | fileCall | inputCall | rawInputCall
deriving Repr, DecidableEq

/-- The raw regex text of a pattern, used verbatim in the rejection
reason. -/
def GatePat.raw : GatePat → List Char
  | .importP => "import\\s+(?!math)".toList
  | .dunderImport => "__import__".toList
  | .execCall => "exec\\(".toList
  | .evalCall => "eval\\(".toList
  | .compileCall => "compile\\(".toList
  | .openCall => "open\\(".toList
  | .fileCall => "file\\(".toList
  | .inputCall => "input\\(".toList
  | .rawInputCall => "raw_input\\(".toList

/-- The literal searched for by each non-import pattern. -/
def GatePat.lit : GatePat → List Char
  | .importP => []
  | .dunderImport => "__import__".toList
  | .execCall => "exec(".toList
  | .evalCall => "eval(".toList
  | .compileCall => "compile(".toList
  | .openCall => "open(".toList
  | .fileCall => "file(".toList
  | .inputCall => "input(".toList
  | .rawInputCall => "raw_input(".toList

/-- Whether a pattern matches somewhere in a lower-cased text. -/
def GatePat.searchIn (p : GatePat) (low : List Char) : Bool :=
  match p with
  | .importP => searchWith matchImportAt low
  | q => hasSub q.lit low

/-- The denylist, in the order of the source. -/
def dangerous_patterns : List GatePat :=
  [.importP, .dunderImport, .execCall, .evalCall, .compileCall,
   .openCall, .fileCall, .inputCall, .rawInputCall]

/-- Case-insensitive scan of a script for the first offending pattern of
the denylist, in denylist order. -/
def findDangerous (code : List Char) : Option GatePat :=
  dangerous_patterns.find? (fun p => p.searchIn (lowerText code))

/-- The rejection reason built for a matched pattern. -/
def blockReason (p : GatePat) : List Char :=
  "Blocked: unsafe operation detected (".toList ++ p.raw ++ ")".toList

/-! ### The execution engine -/

/-- The tagged Execution Result: gate rejection, success with result
value and caller-visible bindings, or a caught runtime fault. -/
inductive ExecResult where
  | rejected : List Char → ExecResult
  | ok : Value → Env → ExecResult
  | failed : List Char → ExecResult
deriving Repr, DecidableEq

/-- Result-value selection: the binding named result, else answer, else
the value of the last-defined binding in definition order, else the
absence value. -/
def pickResult (env : Env) : Value :=
  match envLookup env "result".toList with
  | some v => v
  | Option.none =>
      match envLookup env "answer".toList with
      | some v => v
      | Option.none =>
          match (env.map Prod.snd).getLast? with
          | some v => v
          | Option.none => VNone

/-- Caller-visible bindings: every binding whose name does not begin
with the implementation-private underscore prefix. -/
def publicVars (env : Env) : Env :=
  env.filter (fun kv => !(List.isPrefixOf "_".toList kv.1))

/-- The restricted execution engine. The candidate script is carried
both as text (scanned by the gate) and as its parsed statements (run by
the interpreter). The gate is consulted first; only a script passing it
is executed. -/
def safe_execute_python (cat : Catalog) (code : List Char)
    (prog : List Stmt) : ExecResult :=
  match findDangerous code with
  | some p => .rejected (blockReason p)
  | Option.none =>
      match runScript cat prog with
      | .error e => .failed e
      | .ok env => .ok (pickResult env) (publicVars env)

/-! ### The mode classifier -/

/-- Python-style whitespace stripping at both ends of a text. -/
def stripText (s : List Char) : List Char :=
  ((s.dropWhile isSpaceChar).reverse.dropWhile isSpaceChar).reverse

/-- The four labels, in the declared enumeration order. -/
def valid_modes : List (List Char) :=
  ["RESPOND".toList, "PLAN".toList, "SEARCH".toList, "ACT".toList]

/-- The normalization the classifier applies to the oracle reply: trim,
then upper-case. -/
def normalizeReply (response : List Char) : List Char :=
  (stripText response).map Char.toUpper

/-- The mode classifier parsing policy, applied to the oracle reply (the
oracle call itself is external, so the reply is the input here). The
reply is trimmed and upper-cased; an exact label is returned as is;
otherwise the first label occurring as a substring is returned, labels
tried in enumeration order; with no label anywhere the default is
RESPOND. -/
def route_query (response : List Char) : List Char :=
  let mode := normalizeReply response
  if mode ∈ valid_modes then mode
  else
    match valid_modes.find? (fun v => hasSub v mode) with
    | some v => v
    | Option.none => "RESPOND".toList

/-! ### The ACT strategy handler -/

/-- First occurrence of a literal in a text: the text split as prefix,
literal, remainder, at the leftmost occurrence. -/
def splitFirst (pat : List Char) : List Char →
    Option (List Char × List Char)
  | [] => if List.isPrefixOf pat [] then some ([], []) else Option.none
  | c :: rest =>
      if List.isPrefixOf pat (c :: rest) then
        some ([], (c :: rest).drop pat.length)
      else
        (splitFirst pat rest).map (fun pr => (c :: pr.1, pr.2))

/-- The opening delimiter of the expected fenced block. -/
def fenceOpen : List Char := "```python\n".toList

/-- The closing delimiter of the expected fenced block. -/
def fenceClose : List Char := "```".toList

/-- Code extraction from the oracle reply: the interior of the first
complete fenced block when one is present, else the whole reply; either
way with surrounding whitespace stripped. The leftmost-then-shortest
match of the lazy fenced-block regex is exactly the interior between the
first opening delimiter and the first closing delimiter after it. -/
def extract_code (reply : List Char) : List Char :=
  match splitFirst fenceOpen reply with
  | some (_, rest) =>
      match splitFirst fenceClose rest with
      | some (inner, _) => stripText inner
      | Option.none => stripText reply
  | Option.none => stripText reply

/-- Render a value the way the answer text embeds it. -/
def pyStr : Value → List Char
  | VInt n => (toString n).toList
  | VStr s => s
  | VNone => "None".toList

/-- The metadata of the ACT envelope. -/
structure ActMeta where
  tool_used : List Char
  execution_success : Bool
  vars : Env
  error : Option (List Char)
deriving Repr, DecidableEq

/-- The caller-facing ACT envelope: mode, answer text, result value,
the raw candidate script, and metadata. -/
structure ActEnvelope where
  mode : List Char
  answer : List Char
  result : Option Value
  code : List Char
  metadata : ActMeta
deriving Repr, DecidableEq

/-- The ACT strategy handler, downstream of the oracle call: extract the
script from the reply, gate and run it, and build the envelope. The raw
script is included in the envelope on every outcome. -/
def handle_act (cat : Catalog) (code_response : List Char)
    (prog : List Stmt) : ActEnvelope :=
  let code := extract_code code_response
  match safe_execute_python cat code prog with
  | .ok v vars =>
      { mode := "ACT".toList
        answer := "Result: ".toList ++ pyStr v
        result := some v
        code := code
        metadata :=
          { tool_used := "python_repl".toList
            execution_success := true
            vars := vars
            error := Option.none } }
  | .rejected e | .failed e =>
      { mode := "ACT".toList
        answer := "Execution failed: ".toList ++ e
        result := Option.none
        code := code
        metadata :=
          { tool_used := "python_repl".toList
            execution_success := false
            vars := []
            error := some e } }

/-- The absolute-value capability, on the modelled integer values. -/
def pyAbs : Value → Except (List Char) Value
  | VInt n => .ok (VInt (Int.natAbs n))
  | _ => .error ("bad operand type for abs()".toList)

/-- A concrete Capability Catalog exposing one core symbol, standing in
for the fixed whitelist built at process start. -/
def safe_globals : Catalog :=
  fun name => if name = "abs".toList then some pyAbs else Option.none

/-! ### Helper lemmas -/

/-- A found element splits the list into a prefix of non-matches, the
element, and a remainder. -/
theorem find_eq_some_split {α : Type} (f : α → Bool) :
    ∀ (l : List α) (a : α), l.find? f = some a →
    ∃ l₁ l₂, l = l₁ ++ a :: l₂ ∧ (∀ x ∈ l₁, f x = false) ∧ f a = true := by
  intro l
  induction l with
  | nil => intro a h; simp [List.find?] at h
  | cons x rest ih =>
    intro a h
    by_cases hx : f x = true
    · refine ⟨[], rest, ?_, by simp, ?_⟩
      · simp [List.find?, hx] at h
        simp [h]
      · simp [List.find?, hx] at h
        simpa [h] using hx
    · have hx' : f x = false := by
        cases hfx : f x
        · rfl
        · exact absurd hfx hx
      have h2 : rest.find? f = some a := by
        simpa [List.find?, hx'] using h
      obtain ⟨l₁, l₂, heq, hall, hfa⟩ := ih a h2
      exact ⟨x :: l₁, l₂, by simp [heq], by
        intro y hy
        rcases List.mem_cons.mp hy with rfl | hy2
        · exact hx'
        · exact hall y hy2, hfa⟩

/-- A list with a matching member has a found element. -/
theorem find_isSome_of_mem {α : Type} (f : α → Bool) :
    ∀ (l : List α) (p : α), p ∈ l → f p = true →
    ∃ a, l.find? f = some a := by
  intro l
  induction l with
  | nil => intro p hp; simp at hp
  | cons x rest ih =>
    intro p hp hfp
    by_cases hx : f x = true
    · exact ⟨x, by simp [List.find?, hx]⟩
    · have hx' : f x = false := by
        cases hfx : f x
        · rfl
        · exact absurd hfx hx
      rcases List.mem_cons.mp hp with rfl | hp2
      · exact absurd hfp hx
      · obtain ⟨a, ha⟩ := ih p hp2 hfp
        exact ⟨a, by simp [List.find?, hx', ha]⟩

/-- Prepending non-matching elements keeps the found element. -/
theorem find_prepend_false {α : Type} (f : α → Bool) :
    ∀ (l₁ : List α) (v : α) (l₂ : List α),
    (∀ x ∈ l₁, f x = false) → f v = true →
    (l₁ ++ v :: l₂).find? f = some v := by
  intro l₁
  induction l₁ with
  | nil => intro v l₂ _ hv; simp [List.find?, hv]
  | cons x rest ih =>
    intro v l₂ hall hv
    have hx : f x = false := hall x (by simp)
    have := ih v l₂ (fun y hy => hall y (by simp [hy])) hv
    simp [List.find?, hx, this]

/-- A matching suffix makes the search succeed on the whole text. -/
theorem searchWith_append_left (m : List Char → Bool) :
    ∀ (s₁ s₂ : List Char), searchWith m s₂ = true →
    searchWith m (s₁ ++ s₂) = true := by
  intro s₁
  induction s₁ with
  | nil => intro s₂ h; simpa using h
  | cons c rest ih =>
    intro s₂ h
    simp only [List.cons_append, searchWith, List.append_eq]
    rw [ih s₂ h]
    simp

/-- Every pattern is a member of the denylist. -/
theorem mem_dangerous (p : GatePat) : p ∈ dangerous_patterns := by
  cases p <;> simp [dangerous_patterns]

/-- Every text is a substring of itself. -/
theorem hasSub_refl (s : List Char) : hasSub s s = true := by
  cases s with
  | nil => rfl
  | cons c rest =>
    have h : List.isPrefixOf (c :: rest) (c :: rest) = true :=
      List.isPrefixOf_iff_prefix.mpr List.prefix_rfl
    simp [hasSub, searchWith, h]

/-- A text whose import-pattern search succeeds is flagged with the
first denylist entry, the import pattern. -/
theorem findDangerous_of_import (code : List Char)
    (h : GatePat.importP.searchIn (lowerText code) = true) :
    findDangerous code = some GatePat.importP := by
  unfold findDangerous dangerous_patterns
  simp [List.find?, h]

/-! ### Claims -/

/-- Claim C5, counterexample: for the script consisting solely of the
assignment of 42 to result, the Execution Result is not the claimed pair
of result 42 with an empty bindings map — the binding named result is
not private-prefixed, so it is kept in the caller-visible map. -/
theorem result42_bindings_counterexample :
    safe_execute_python safe_globals "result = 42".toList
      [Stmt.assign "result".toList (Expr.lit (Value.VInt 42))] ≠
    ExecResult.ok (Value.VInt 42) [] := by decide

/-- Claim C5, amended: for the script consisting solely of the
assignment of 42 to result, the Execution Result is success with result
value 42 and a bindings map holding exactly the result binding; only
private-prefixed names are excluded from the map. -/
theorem result42_envelope :
    safe_execute_python safe_globals "result = 42".toList
      [Stmt.assign "result".toList (Expr.lit (Value.VInt 42))] =
    ExecResult.ok (Value.VInt 42) [("result".toList, Value.VInt 42)] := by
  decide

/-- Claim C9: the last-defined-binding fallback follows first-insertion
order of names, not most-recent-assignment order: defining x, then y,
then reassigning x yields the value of y (2) as the result, while the
bindings map shows the reassigned x (3) at its original position. -/
theorem last_defined_first_insertion :
    safe_execute_python safe_globals "x = 1\ny = 2\nx = 3".toList
      [Stmt.assign "x".toList (Expr.lit (Value.VInt 1)),
       Stmt.assign "y".toList (Expr.lit (Value.VInt 2)),
       Stmt.assign "x".toList (Expr.lit (Value.VInt 3))] =
    ExecResult.ok (Value.VInt 2)
      [("x".toList, Value.VInt 3), ("y".toList, Value.VInt 2)] := by decide

/-- Claim C10: the private-prefix exclusion applies only to the returned
bindings map, not to result selection: a script defining solely an
underscore-prefixed binding of 5 succeeds with result 5 while the
returned map is empty. -/
theorem private_binding_result :
    safe_execute_python safe_globals "_tmp = 5".toList
      [Stmt.assign "_tmp".toList (Expr.lit (Value.VInt 5))] =
    ExecResult.ok (Value.VInt 5) [] := by decide

/-- Claim C7: for every gate-passing script, running the Execution
Engine twice with the identical Capability Catalog (given extensionally)
yields identical Execution Results — the sandboxed evaluation is a
deterministic function of its inputs. -/
theorem sandbox_deterministic (cat1 cat2 : Catalog) (code : List Char)
    (prog : List Stmt) (hcat : ∀ s, cat1 s = cat2 s)
    (_hg : findDangerous code = Option.none) :
    safe_execute_python cat1 code prog =
    safe_execute_python cat2 code prog := by
  have h : cat1 = cat2 := funext hcat
  rw [h]

/-- Claim C7, witness: the determinism theorem applied to a concrete
gate-passing script and the concrete catalog. -/
theorem sandbox_deterministic_witness :
    safe_execute_python safe_globals "x = 1".toList
      [Stmt.assign "x".toList (Expr.lit (Value.VInt 1))] =
    safe_execute_python safe_globals "x = 1".toList
      [Stmt.assign "x".toList (Expr.lit (Value.VInt 1))] :=
  sandbox_deterministic safe_globals safe_globals "x = 1".toList
    [Stmt.assign "x".toList (Expr.lit (Value.VInt 1))]
    (fun _ => rfl) (by decide)

/-- Claim C6, counterexample: a fence-free oracle reply is not taken
verbatim as the script — surrounding whitespace is stripped, so a reply
with a trailing newline yields a script without it. -/
theorem extraction_verbatim_counterexample :
    (handle_act safe_globals "x = 1\n".toList
        [Stmt.assign "x".toList (Expr.lit (Value.VInt 1))]).code ≠
      "x = 1\n".toList ∧
    (handle_act safe_globals "x = 1\n".toList
        [Stmt.assign "x".toList (Expr.lit (Value.VInt 1))]).code =
      "x = 1".toList := by decide

/-- Claim C6, amended: in the ACT handler the script is the extraction
of the oracle reply; with a complete fenced block of the expected
delimiter present, the script is the interior of the first such block
with surrounding whitespace stripped; otherwise (no opening delimiter,
or an opening delimiter never closed) the script is the entire reply
with surrounding whitespace stripped. -/
theorem extraction_policy (cat : Catalog) (reply : List Char)
    (prog : List Stmt) :
    (handle_act cat reply prog).code = extract_code reply ∧
    (∀ pre rest inner post,
      splitFirst fenceOpen reply = some (pre, rest) →
      splitFirst fenceClose rest = some (inner, post) →
      extract_code reply = stripText inner) ∧
    (splitFirst fenceOpen reply = Option.none →
      extract_code reply = stripText reply) ∧
    (∀ pre rest, splitFirst fenceOpen reply = some (pre, rest) →
      splitFirst fenceClose rest = Option.none →
      extract_code reply = stripText reply) := by
  refine ⟨?_, ?_, ?_, ?_⟩
  · unfold handle_act
    cases h : safe_execute_python cat (extract_code reply) prog <;>
      simp [h]
  · intro pre rest inner post h1 h2
    simp [extract_code, h1, h2]
  · intro h1
    simp [extract_code, h1]
  · intro pre rest h1 h2
    simp [extract_code, h1, h2]

/-- Claim C6, witness: the amended extraction policy applied to a
concrete fenced reply, giving the stripped interior of the block. -/
theorem extraction_policy_witness :
    extract_code "```python\nresult = 1\n```".toList = "result = 1".toList :=
  (extraction_policy safe_globals "```python\nresult = 1\n```".toList
      []).2.1 [] "result = 1\n```".toList "result = 1\n".toList []
    (by decide) (by decide)

/-- Claim C1: a Candidate Script in which any denylisted pattern matches
(case-insensitively) is rejected by the Static Gate with a reason naming
the first offending pattern of the denylist, and the script is never
executed: the outcome is that same rejection for every possible parse of
the script and every catalog, so the execution branch is unreachable. -/
theorem static_gate_rejects (code : List Char) (p : GatePat)
    (hp : p.searchIn (lowerText code) = true) :
    ∃ q l₁ l₂,
      dangerous_patterns = l₁ ++ q :: l₂ ∧
      (∀ r ∈ l₁, r.searchIn (lowerText code) = false) ∧
      q.searchIn (lowerText code) = true ∧
      findDangerous code = some q ∧
      ∀ cat prog, safe_execute_python cat code prog =
        ExecResult.rejected (blockReason q) := by
  obtain ⟨q, hq⟩ := find_isSome_of_mem
    (fun r => r.searchIn (lowerText code)) dangerous_patterns p
    (mem_dangerous p) hp
  obtain ⟨l₁, l₂, heq, hall, hfq⟩ := find_eq_some_split _ _ _ hq
  have hfind : findDangerous code = some q := hq
  refine ⟨q, l₁, l₂, heq, hall, hfq, hfind, ?_⟩
  intro cat prog
  unfold safe_execute_python
  rw [hfind]

/-- Claim C1, witness: the gate theorem applied to a concrete script
matching the file-open pattern in upper case. -/
theorem static_gate_rejects_witness :
    ∃ q l₁ l₂,
      dangerous_patterns = l₁ ++ q :: l₂ ∧
      (∀ r ∈ l₁, r.searchIn (lowerText "OPEN(x)".toList) = false) ∧
      q.searchIn (lowerText "OPEN(x)".toList) = true ∧
      findDangerous "OPEN(x)".toList = some q ∧
      ∀ cat prog, safe_execute_python cat "OPEN(x)".toList prog =
        ExecResult.rejected (blockReason q) :=
  static_gate_rejects "OPEN(x)".toList GatePat.openCall (by decide)

/-- Claim C2: a gate-passed script whose run raises a runtime fault has
the fault caught and reported as a failure with the error message; the
ACT envelope then marks execution_success false, carries the error
detail, and its code field still holds the extracted script text. -/
theorem act_fault_contained (cat : Catalog) (reply : List Char)
    (prog : List Stmt) (e : List Char)
    (hg : findDangerous (extract_code reply) = Option.none)
    (hx : runScript cat prog = Except.error e) :
    safe_execute_python cat (extract_code reply) prog =
      ExecResult.failed e ∧
    (handle_act cat reply prog).metadata.execution_success = false ∧
    (handle_act cat reply prog).metadata.error = some e ∧
    (handle_act cat reply prog).code = extract_code reply := by
  have h1 : safe_execute_python cat (extract_code reply) prog =
      ExecResult.failed e := by
    unfold safe_execute_python
    rw [hg, hx]
  exact ⟨h1, by simp [handle_act, h1], by simp [handle_act, h1],
    by simp [handle_act, h1]⟩

/-- Claim C2, witness: the containment theorem applied to the concrete
reply dividing one by zero. -/
theorem act_fault_contained_witness :
    safe_execute_python safe_globals (extract_code "1/0".toList)
      [Stmt.exprStmt
        (Expr.div (Expr.lit (Value.VInt 1)) (Expr.lit (Value.VInt 0)))] =
      ExecResult.failed "division by zero".toList ∧
    (handle_act safe_globals "1/0".toList
      [Stmt.exprStmt
        (Expr.div (Expr.lit (Value.VInt 1))
          (Expr.lit (Value.VInt 0)))]).metadata.execution_success = false ∧
    (handle_act safe_globals "1/0".toList
      [Stmt.exprStmt
        (Expr.div (Expr.lit (Value.VInt 1))
          (Expr.lit (Value.VInt 0)))]).metadata.error =
      some "division by zero".toList ∧
    (handle_act safe_globals "1/0".toList
      [Stmt.exprStmt
        (Expr.div (Expr.lit (Value.VInt 1))
          (Expr.lit (Value.VInt 0)))]).code = extract_code "1/0".toList :=
  act_fault_contained safe_globals "1/0".toList
    [Stmt.exprStmt
      (Expr.div (Expr.lit (Value.VInt 1)) (Expr.lit (Value.VInt 0)))]
    "division by zero".toList (by decide) rfl

/-- Claim C3: for every oracle reply, the Mode Classifier returns one of
exactly the four labels and never raises; it returns the normalized
reply on an exact label match, the first label in enumeration order
occurring as a substring when there is no exact match, and RESPOND when
no label occurs anywhere. -/
theorem mode_classifier_contract (response : List Char) :
    (route_query response = "RESPOND".toList ∨
     route_query response = "PLAN".toList ∨
     route_query response = "SEARCH".toList ∨
     route_query response = "ACT".toList) ∧
    (normalizeReply response ∈ valid_modes →
      route_query response = normalizeReply response) ∧
    (normalizeReply response ∉ valid_modes →
      ∀ v l₁ l₂, valid_modes = l₁ ++ v :: l₂ →
        (∀ w ∈ l₁, hasSub w (normalizeReply response) = false) →
        hasSub v (normalizeReply response) = true →
        route_query response = v) ∧
    ((∀ v ∈ valid_modes, hasSub v (normalizeReply response) = false) →
      route_query response = "RESPOND".toList) := by
  refine ⟨?_, ?_, ?_, ?_⟩
  · by_cases hm : normalizeReply response ∈ valid_modes
    · have hr : route_query response = normalizeReply response := by
        simp [route_query, hm]
      rw [hr]
      simpa [valid_modes] using hm
    · cases hf : valid_modes.find? (fun v => hasSub v (normalizeReply response)) with
      | none => simp [route_query, hm, hf]
      | some v =>
        have hv : v ∈ valid_modes := List.mem_of_find?_eq_some hf
        have hr : route_query response = v := by
          simp [route_query, hm, hf]
        rw [hr]
        simpa [valid_modes] using hv
  · intro hm
    simp [route_query, hm]
  · intro hm v l₁ l₂ heq hall hv
    have hf : valid_modes.find? (fun w => hasSub w (normalizeReply response)) =
        some v := by
      rw [heq]
      exact find_prepend_false _ l₁ v l₂ hall hv
    simp [route_query, hm, hf]
  · intro hall
    by_cases hm : normalizeReply response ∈ valid_modes
    · have := hall _ hm
      rw [hasSub_refl] at this
      exact absurd this (by simp)
    · have hf : valid_modes.find? (fun w => hasSub w (normalizeReply response)) =
          Option.none := by
        apply List.find?_eq_none.mpr
        intro w hw
        simp [hall w hw]
      simp [route_query, hm, hf]

/-- Claim C3, witness: the classifier contract applied to a reply with
extra prose around the SEARCH label, giving the substring match. -/
theorem mode_classifier_contract_witness :
    route_query "I think SEARCH fits best".toList = "SEARCH".toList :=
  (mode_classifier_contract "I think SEARCH fits best".toList).2.2.1
    (by decide) "SEARCH".toList ["RESPOND".toList, "PLAN".toList]
    ["ACT".toList] (by decide) (by decide) (by decide)

/-- Claim C4: a gate-passed script that runs without fault yields
success whose value follows the selection priority: the binding named
result when defined, else the binding named answer, else the value of
the last-defined binding in definition order when any binding exists,
else the absence value. -/
theorem result_selection_policy (cat : Catalog) (code : List Char)
    (prog : List Stmt) (env : Env)
    (hg : findDangerous code = Option.none)
    (hx : runScript cat prog = Except.ok env) :
    safe_execute_python cat code prog =
      ExecResult.ok (pickResult env) (publicVars env) ∧
    (∀ v, envLookup env "result".toList = some v → pickResult env = v) ∧
    (envLookup env "result".toList = Option.none →
      ∀ v, envLookup env "answer".toList = some v → pickResult env = v) ∧
    (envLookup env "result".toList = Option.none →
      envLookup env "answer".toList = Option.none → env ≠ [] →
      some (pickResult env) = (env.map Prod.snd).getLast?) ∧
    (env = [] → pickResult env = Value.VNone) := by
  refine ⟨?_, ?_, ?_, ?_, ?_⟩
  · unfold safe_execute_python
    rw [hg, hx]
  · intro v hv
    unfold pickResult
    rw [hv]
  · intro h0 v hv
    unfold pickResult
    rw [h0, hv]
  · intro h0 h1 hne
    have hmap : env.map Prod.snd ≠ [] := by
      simpa using hne
    cases hl : (env.map Prod.snd).getLast? with
    | none => exact absurd (List.getLast?_eq_none_iff.mp hl) hmap
    | some v =>
      unfold pickResult
      rw [h0, h1, hl]
  · intro h
    subst h
    simp [pickResult, envLookup]

/-- Claim C4, witness: the selection policy applied to the script
defining x as 1 then y as 2 with no result or answer binding; the result
is the last-defined value 2. -/
theorem result_selection_policy_witness :
    safe_execute_python safe_globals "x = 1\ny = 2".toList
      [Stmt.assign "x".toList (Expr.lit (Value.VInt 1)),
       Stmt.assign "y".toList (Expr.lit (Value.VInt 2))] =
    ExecResult.ok (Value.VInt 2)
      [("x".toList, Value.VInt 1), ("y".toList, Value.VInt 2)] :=
  (result_selection_policy safe_globals "x = 1\ny = 2".toList
    [Stmt.assign "x".toList (Expr.lit (Value.VInt 1)),
     Stmt.assign "y".toList (Expr.lit (Value.VInt 2))]
    [("x".toList, Value.VInt 1), ("y".toList, Value.VInt 2)]
    (by decide) rfl).1

/-- Claim C8: any script containing the import keyword, a single space
and a continuation that does not begin with the whitelisted module name
(after case folding) is rejected by the Static Gate with the import
pattern as the offending pattern, whatever comes before; in particular a
from-import of a symbol out of the math module is rejected. -/
theorem import_nonmath_rejected (a b : List Char)
    (hb : startsWithMath (lowerText b) = false) :
    findDangerous (a ++ "import ".toList ++ b) = some GatePat.importP ∧
    ∀ cat prog,
      safe_execute_python cat (a ++ "import ".toList ++ b) prog =
        ExecResult.rejected (blockReason GatePat.importP) := by
  have hsplit : "import ".toList ++ lowerText b =
      "import".toList ++ (' ' :: lowerText b) := by
    have h : "import ".toList = "import".toList ++ [' '] := by decide
    rw [h, List.append_assoc]
    rfl
  have hmatch : matchImportAt ("import ".toList ++ lowerText b) = true := by
    rw [hsplit]
    unfold matchImportAt
    rw [List.drop_left' (by decide)]
    have hpre : List.isPrefixOf "import".toList
        ("import".toList ++ (' ' :: lowerText b)) = true :=
      List.isPrefixOf_iff_prefix.mpr (List.prefix_append _ _)
    rw [hpre]
    simp [wsThenNotMath, isSpaceChar, hb]
  have hsearch : GatePat.importP.searchIn
      (lowerText (a ++ "import ".toList ++ b)) = true := by
    have hlow : lowerText (a ++ "import ".toList ++ b) =
        lowerText a ++ ("import ".toList ++ lowerText b) := by
      have h1 : lowerText "import ".toList = "import ".toList := by decide
      simp [lowerText, List.map_append, h1, List.append_assoc]
    rw [hlow]
    show searchWith matchImportAt
      (lowerText a ++ ("import ".toList ++ lowerText b)) = true
    apply searchWith_append_left
    rw [hsplit]
    show searchWith matchImportAt
      ('i' :: ("mport".toList ++ (' ' :: lowerText b))) = true
    unfold searchWith
    rw [show 'i' :: ("mport".toList ++ (' ' :: lowerText b)) =
      "import".toList ++ (' ' :: lowerText b) from rfl] at *
    rw [← hsplit, hmatch]
    simp
  have hfind : findDangerous (a ++ "import ".toList ++ b) =
      some GatePat.importP :=
    findDangerous_of_import _ hsearch
  refine ⟨hfind, ?_⟩
  intro cat prog
  unfold safe_execute_python
  rw [hfind]

/-- Claim C8, witness: the from-import of the square-root symbol out of
the math module is rejected by the gate via the import pattern. -/
theorem import_nonmath_rejected_witness :
    findDangerous ("from math ".toList ++ "import ".toList ++
      "sqrt".toList) = some GatePat.importP ∧
    ∀ cat prog,
      safe_execute_python cat ("from math ".toList ++ "import ".toList ++
        "sqrt".toList) prog =
        ExecResult.rejected (blockReason GatePat.importP) :=
  import_nonmath_rejected "from math ".toList "sqrt".toList (by decide)

end AgentDecision
